import Mathlib

/-!
Shallow embedding of the spausedd scheduling-latency watchdog
(`src/spausedd.c`) and proofs about its measurement-and-detection core:
the `/proc/stat` steal-time source (`nano_stealtime_kernel_get`), the
vmguestlib steal-time source (`nano_stealtime_vmguestlib_get`), and the
main poll loop (`poll_run`).

Machine integers are modelled as `Nat` reduced modulo `2 ^ 64` where the
C code uses `uint64_t` arithmetic that can wrap.  The C `double`
`steal_perc` is modelled as `Option ℚ`: `some q` for the exact quotient
(the one comparison `steal_perc > max_steal_threshold` is exact on the
integer-valued thresholds the program uses), and `none` for the
non-finite value (±inf or NaN) that the IEEE division produces when
`tv_diff` is zero.
-/

namespace Spausedd

/-- `#define NO_NS_IN_SEC 1000000000ULL` (spausedd.c line 61). -/
def NO_NS_IN_SEC : ℕ := 1000000000

/-- `#define NO_NS_IN_MSEC 1000000ULL` (spausedd.c line 62). -/
def NO_NS_IN_MSEC : ℕ := 1000000

/-- `#define DEFAULT_TIMEOUT 200` (spausedd.c line 51). -/
def DEFAULT_TIMEOUT : ℕ := 200

/-- `#define MAX_TIMEOUT (1000 * 60 * 60)` (spausedd.c line 56). -/
def MAX_TIMEOUT : ℕ := 1000 * 60 * 60

/-- One past the largest `uint64_t` value. -/
def U64 : ℕ := 2 ^ 64

/-- Linux `errno` value for an interrupted system call. -/
def EINTR : ℕ := 4

/-- `uint64_t` subtraction `a - b` (two's-complement wraparound) for
operands already reduced modulo `2 ^ 64`. -/
def u64sub (a b : ℕ) : ℕ := (a + U64 - b % U64) % U64

/-!
### The `/proc/stat` steal-time source: `nano_stealtime_kernel_get`

The C function (lines 407-457) reads `/proc/stat` line by line and runs
`sscanf(buf, "cpu %llu %llu %llu %llu %llu %llu %llu %llu", ...)` on
each line; a line with more than 4 successful conversions is accepted,
the 8th field (steal, in clock ticks) is multiplied by
`NO_NS_IN_SEC / clock_tick` and returned, and scanning stops.  We model
a line as a `List Char` and reproduce the `sscanf` matching for this
fixed format: the literal `cpu` must match at the very start (leading
whitespace fails the first literal), then each `%llu` conversion skips
whitespace, accepts an optional sign and requires at least one decimal
digit (`strtoull`, base 10).  The parsed value is reduced modulo
`2 ^ 64` for the `uint64_t` destination (glibc saturates instead on
overflow; every field exercised below is far below that range).
-/

/-- C `isspace` on the characters `sscanf` treats as whitespace. -/
def isSpaceChar (ch : Char) : Bool :=
  ch = ' ' || ch = '\t' || ch = '\n' || ch = '\x0b' || ch = '\x0c' || ch = '\r'

/-- Drop leading whitespace, as a `%llu` conversion does. -/
def skipWs : List Char → List Char
  | [] => []
  | ch :: rest => if isSpaceChar ch then skipWs rest else ch :: rest

/-- Consume a maximal run of decimal digits, accumulating their value. -/
def digitsVal : List Char → ℕ → ℕ × List Char
  | [], acc => (acc, [])
  | ch :: rest, acc =>
    if ch.isDigit then digitsVal rest (acc * 10 + (ch.toNat - 48))
    else (acc, ch :: rest)

/-- One `%llu` conversion of `sscanf`: skip whitespace, an optional
sign, then at least one decimal digit; `none` on matching failure.  The
value is reduced modulo `2 ^ 64` (a `-` sign wraps, as `strtoull`
negates in unsigned arithmetic). -/
def scanU64 (s : List Char) : Option (ℕ × List Char) :=
  let s1 := skipWs s
  let p : Bool × List Char :=
    match s1 with
    | '-' :: r => (true, r)
    | '+' :: r => (false, r)
    | _ => (false, s1)
  match p.2 with
  | ch :: _ =>
    if ch.isDigit then
      let v := digitsVal p.2 0
      some ((if p.1 then (U64 - v.1 % U64) % U64 else v.1 % U64), v.2)
    else none
  | [] => none

/-- Run up to `k` `%llu` conversions, stopping at the first failure;
returns the values converted, in order. -/
def scanU64List : ℕ → List Char → List ℕ
  | 0, _ => []
  | k + 1, s =>
    match scanU64 s with
    | none => []
    | some (v, rest) => v :: scanU64List k rest

/-- `sscanf(buf, "cpu %llu %llu %llu %llu %llu %llu %llu %llu", &s_user,
..., &s_steal)` (lines 426-429): the pair of the conversion count and
the converted values.  Fields beyond the count keep their initialised
value `0` in the caller (line 425), modelled by `List.getD _ 0`. -/
def sscanfCpu (line : List Char) : ℕ × List ℕ :=
  match line with
  | 'c' :: 'p' :: 'u' :: rest =>
    let vals := scanU64List 8 rest
    (vals.length, vals)
  | _ => (0, [])

/-- The `while (fgets(...))` scan of lines 424-452: the first line with
more than 4 conversions yields `s_steal * (NO_NS_IN_SEC / clock_tick)`
(with `clock_tick = 100` when `sysconf(_SC_CLK_TCK)` fails, i.e.
`clk = none`) and scanning breaks; if no line matches, the initial
`res_steal = 0` is returned. -/
def kernelGetScan (clk : Option ℕ) : List (List Char) → ℕ
  | [] => 0
  | l :: ls =>
    let r := sscanfCpu l
    if r.1 > 4 then
      let clock_tick := clk.getD 100
      let factor := NO_NS_IN_SEC / clock_tick
      r.2.getD 7 0 * factor % U64
    else kernelGetScan clk ls

/-- `nano_stealtime_kernel_get` (lines 407-457).  `procStat` is the
content of `/proc/stat` as a list of lines, `none` when `fopen` fails
(the function then returns the initial `res_steal = 0`); `clk` is the
`sysconf(_SC_CLK_TCK)` result, `none` for the `-1` failure case. -/
def nano_stealtime_kernel_get (procStat : Option (List (List Char))) (clk : Option ℕ) : ℕ :=
  match procStat with
  | none => 0
  | some lines => kernelGetScan clk lines

/-!
### The vmguestlib steal-time source: `nano_stealtime_vmguestlib_get`
-/

/-- The environment one call of `nano_stealtime_vmguestlib_get` (lines
464-521) observes: whether `VMGuestLib_UpdateInfo` succeeded, whether
`VMGuestLib_GetCpuStolenMs` succeeded, and the stolen milliseconds it
reported. -/
structure GuestlibSample where
  update_ok : Bool
  stolen_ok : Bool
  stolen_ms : ℕ
deriving DecidableEq

/-- `nano_stealtime_vmguestlib_get`: a failed update or query returns
`0` for that sample (previous values are not reused); on success the
stolen milliseconds are converted to nanoseconds,
`res_steal = NO_NS_IN_MSEC * stolen_ms` in `uint64_t`. -/
def nano_stealtime_vmguestlib_get (s : GuestlibSample) : ℕ :=
  if s.update_ok = false then 0
  else if s.stolen_ok = false then 0
  else NO_NS_IN_MSEC * s.stolen_ms % U64

/-!
### The main loop: `poll_run`

`poll_run(timeout)` (lines 610-697) computes
`tv_max_allowed_diff = timeout * NO_NS_IN_MSEC`,
`poll_timeout = timeout / 3` (an `int`, in milliseconds), then loops
`while (!stop_main_loop)`.  Each loop body samples steal time and the
monotonic clock, prints statistics when `display_statistics` is set,
clamps `poll_timeout` below at 0, calls `poll`, and on a poll failure
other than `EINTR` logs and `exit(2)`s; otherwise it measures
`tv_diff`/`steal_diff`, computes `steal_perc` and classifies the
iteration, incrementing `times_not_scheduled` exactly on
`tv_diff > tv_max_allowed_diff`.  After the loop, one final
`print_statistics` runs.

We embed the loop as a function over a finite trace of per-iteration
environment observations (flag values seen at their read points, clock
and steal samples, the `poll` result) and record the externally visible
outputs as a list of events.
-/

/-- The configuration `poll_run` receives: the `timeout` argument
(milliseconds, validated to `1..MAX_TIMEOUT` by `main`) and the global
`max_steal_threshold` (a C `double`; always integer-valued: 10, 100 or
a CLI integer). -/
structure Config where
  timeout : ℕ
  max_steal_threshold : ℚ
deriving DecidableEq

/-- `tv_max_allowed_diff = timeout * NO_NS_IN_MSEC` (line 626); for the
validated range `timeout ≤ MAX_TIMEOUT` the `uint64_t` product cannot
wrap. -/
def tv_max_allowed_diff (c : Config) : ℕ := c.timeout * NO_NS_IN_MSEC

/-- `poll_timeout = timeout / 3` (line 627): `uint64_t` division whose
result is stored in an `int`; value-preserving on the validated range.
Modelled as `ℤ` to carry the signedness of the `int`. -/
def poll_timeout_init (c : Config) : ℤ := (c.timeout / 3 : ℕ)

/-- The clamp `if (poll_timeout < 0) poll_timeout = 0;`
(lines 652-654): the duration actually passed to `poll`. -/
def poll_timeout_eff (c : Config) : ℤ :=
  if poll_timeout_init c < 0 then 0 else poll_timeout_init c

/-- What one prospective loop iteration observes from its environment:
the `stop_main_loop` value read by the `while` condition, the
`display_statistics` value read at line 641, the two steal samples and
two monotonic samples (each already reduced modulo `2 ^ 64`), and the
`poll` result — `none` for a return value `≥ 0`, `some e` for a `-1`
return with `errno = e`. -/
structure IterInput where
  stop_flag : Bool
  display_flag : Bool
  steal_prev : ℕ
  tv_prev : ℕ
  poll_errno : Option ℕ
  tv_now : ℕ
  steal_now : ℕ
deriving DecidableEq

/-- The externally visible outputs of the loop that the claims talk
about: a `print_statistics` line, the `LOG_ERR "Not scheduled for ..."`
overrun diagnostic (line 679), and the `LOG_WARNING "Steal time is >"`
diagnostic (line 688). -/
inductive Event where
  | statistics
  | overrun_report
  | steal_warning
deriving DecidableEq

/-- `tv_diff = tv_now - tv_prev` (line 669), `uint64_t` subtraction. -/
def tv_diff (i : IterInput) : ℕ := u64sub i.tv_now i.tv_prev

/-- `steal_diff = steal_now - steal_prev` (line 672), `uint64_t`
subtraction. -/
def steal_diff (i : IterInput) : ℕ := u64sub i.steal_now i.steal_prev

/-- Line 674: `steal_perc = ((double)steal_diff / tv_diff) * 100`.
`some` of the exact quotient when `tv_diff ≠ 0`; `none` models the
non-finite `double` (±inf or NaN) produced by the IEEE division when
`tv_diff = 0` — the division is evaluated either way and never traps. -/
def steal_perc (sd td : ℕ) : Option ℚ :=
  if td = 0 then none else some ((sd : ℚ) / td * 100)

/-- The result of executing one loop body: `fatal ev code` when the
body reached `exit(code)` after emitting `ev`, `cont ev count` when it
fell through to the next `while` test with `times_not_scheduled =
count`. -/
inductive StepRes where
  | fatal (events : List Event) (code : ℕ)
  | cont (events : List Event) (count : ℕ)
deriving DecidableEq

/-- The measurement-and-classification tail of the loop body (lines
668-692), reached when `poll` did not fail fatally.  The
`steal_perc > max_steal_threshold` comparison sits inside the
`tv_diff > tv_max_allowed_diff` branch, which forces `tv_diff ≠ 0`, so
the `none` (non-finite) case of `steal_perc` can never reach it; its
value there is set to `false` only to keep the function total. -/
def iterMeasure (c : Config) (count : ℕ) (i : IterInput) (ev0 : List Event) : StepRes :=
  let td := tv_diff i
  let sd := steal_diff i
  let sp := steal_perc sd td
  if td > tv_max_allowed_diff c then
    let alarm : Bool :=
      match sp with
      | some q => decide (q > c.max_steal_threshold)
      | none => false
    let ev1 := if alarm then [Event.overrun_report, Event.steal_warning]
               else [Event.overrun_report]
    StepRes.cont (ev0 ++ ev1) (count + 1)
  else
    StepRes.cont ev0 count

/-- One execution of the `while` body (lines 634-692), after the
`!stop_main_loop` test succeeded: the `display_statistics` block, the
`poll` call with its error handling (`exit(2)` unless `errno == EINTR`),
then the measurement tail.  `count` is `times_not_scheduled` on
entry. -/
def iterStep (c : Config) (count : ℕ) (i : IterInput) : StepRes :=
  let ev0 : List Event := if i.display_flag then [Event.statistics] else []
  match i.poll_errno with
  | some e =>
    if e ≠ EINTR then StepRes.fatal ev0 2
    else iterMeasure c count i ev0
  | none => iterMeasure c count i ev0

/-- How a run driven by a finite observation trace ended: the loop
exited through the `while` condition (`stopped`), the process called
`exit code` (`fatal`), or the trace ran out with the loop still running
(`running`). -/
inductive Outcome where
  | stopped
  | fatal (code : ℕ)
  | running
deriving DecidableEq

/-- The `while (!stop_main_loop)` loop (line 633) plus the final
`print_statistics` (line 696), driven by a finite trace of iteration
observations: when the head observation has `stop_flag` set, the loop
exits at the `while` test without consuming any of that iteration's
samples and emits exactly one final statistics event. -/
def pollRunLoop (c : Config) (count : ℕ) : List IterInput → List Event × ℕ × Outcome
  | [] => ([], count, Outcome.running)
  | i :: rest =>
    if i.stop_flag then ([Event.statistics], count, Outcome.stopped)
    else
      match iterStep c count i with
      | StepRes.fatal ev code => (ev, count, Outcome.fatal code)
      | StepRes.cont ev count' =>
        let r := pollRunLoop c count' rest
        (ev ++ r.1, r.2)

/-- The `times_not_scheduled` counter a step result carries, `none` for
the fatal (`exit`) case. -/
def stepCount : StepRes → Option ℕ
  | StepRes.fatal _ _ => none
  | StepRes.cont _ count => some count

/-- The events and final counter produced by the loop bodies of a trace
prefix alone (no `while` tests, no final statistics): the reference
value against which a stopped run is compared. -/
def runEvents (c : Config) (count : ℕ) : List IterInput → List Event × ℕ
  | [] => ([], count)
  | i :: rest =>
    match iterStep c count i with
    | StepRes.fatal ev _ => (ev, count)
    | StepRes.cont ev count' =>
      let r := runEvents c count' rest
      (ev ++ r.1, r.2)

/-!
### Concrete fixtures
-/

/-- The compiled-in defaults: 200 ms gap, 10 % steal threshold. -/
def defaultConfig : Config := ⟨200, 10⟩

/-- An uneventful iteration observation: no flags set, a successful
poll, 66 ms elapsed, no steal. -/
def iQuiet : IterInput := ⟨false, false, 0, 0, none, 66000000, 0⟩

/-- An observation whose stop flag is set at the top-of-loop test. -/
def iStop : IterInput := ⟨true, false, 0, 0, none, 0, 0⟩

/-- An observation with zero measured elapsed time
(`tv_now = tv_prev`) and a nonzero steal delta. -/
def iZeroElapsed : IterInput := ⟨false, false, 0, 5, none, 5, 7⟩

/-- An observation whose poll failed with a non-`EINTR` errno
(`EBADF = 9`). -/
def iPollFail : IterInput := ⟨false, false, 0, 0, some 9, 66000000, 0⟩

/-- An overrun observation: 300 ms elapsed against the 200 ms gap,
with 100 ms of steal (33 %). -/
def iOverrun : IterInput := ⟨false, false, 0, 0, none, 300000000, 100000000⟩

/-!
### Helper lemmas
-/

/-- Case analysis of the measurement tail: an overrun iteration yields
`ev0` followed by the overrun diagnostic (and possibly the steal
warning) and increments the counter; any other iteration leaves both
untouched. -/
theorem iterMeasure_cases (c : Config) (count : ℕ) (i : IterInput) (ev0 : List Event) :
    (tv_max_allowed_diff c < tv_diff i ∧
      ∃ tail, iterMeasure c count i ev0 =
          StepRes.cont (ev0 ++ Event.overrun_report :: tail) (count + 1) ∧
        (tail = [] ∨ tail = [Event.steal_warning])) ∨
    (¬ tv_max_allowed_diff c < tv_diff i ∧
      iterMeasure c count i ev0 = StepRes.cont ev0 count) := by
  by_cases h : tv_max_allowed_diff c < tv_diff i
  · left
    refine ⟨h, ?_⟩
    cases halarm : (match steal_perc (steal_diff i) (tv_diff i) with
        | some q => decide (q > c.max_steal_threshold)
        | none => false) with
    | true =>
      exact ⟨[Event.steal_warning], by simp [iterMeasure, h, halarm], Or.inr rfl⟩
    | false =>
      exact ⟨[], by simp [iterMeasure, h, halarm], Or.inl rfl⟩
  · right
    exact ⟨h, by simp [iterMeasure, h]⟩

/-- When the poll call did not fail fatally (success or `EINTR`), the
loop body is its measurement tail over the statistics prefix. -/
theorem iterStep_ok_eq (c : Config) (count : ℕ) (i : IterInput)
    (hok : i.poll_errno = none ∨ i.poll_errno = some EINTR) :
    iterStep c count i =
      iterMeasure c count i (if i.display_flag then [Event.statistics] else []) := by
  rcases hok with h | h <;> simp [iterStep, h]

/-- A successful-or-interrupted poll never makes the loop body fatal. -/
theorem iterStep_cont_of_ok (c : Config) (count : ℕ) (i : IterInput)
    (hok : i.poll_errno = none ∨ i.poll_errno = some EINTR) :
    ∃ ev count', iterStep c count i = StepRes.cont ev count' := by
  rw [iterStep_ok_eq c count i hok]
  rcases iterMeasure_cases c count i (if i.display_flag then [Event.statistics] else []) with
    ⟨_, tail, heq, _⟩ | ⟨_, heq⟩
  · exact ⟨_, _, heq⟩
  · exact ⟨_, _, heq⟩

/-- Any non-fatal loop body increments `times_not_scheduled` by 1
exactly on `tv_diff > tv_max_allowed_diff` and by 0 otherwise. -/
theorem iterStep_cont_count (c : Config) (count : ℕ) (i : IterInput) (ev : List Event)
    (count' : ℕ) (h : iterStep c count i = StepRes.cont ev count') :
    count' = count + if tv_max_allowed_diff c < tv_diff i then 1 else 0 := by
  rcases he : i.poll_errno with _ | e
  · rw [iterStep_ok_eq c count i (Or.inl he)] at h
    rcases iterMeasure_cases c count i
        (if i.display_flag then [Event.statistics] else []) with
      ⟨hb, tail, heq, _⟩ | ⟨hb, heq⟩ <;> rw [heq] at h <;> cases h <;> simp [hb]
  · by_cases hE : e = EINTR
    · subst hE
      rw [iterStep_ok_eq c count i (Or.inr he)] at h
      rcases iterMeasure_cases c count i
          (if i.display_flag then [Event.statistics] else []) with
        ⟨hb, tail, heq, _⟩ | ⟨hb, heq⟩ <;> rw [heq] at h <;> cases h <;> simp [hb]
    · simp [iterStep, he, hE] at h

/-- The statistics prefix of a loop body never contains an overrun
diagnostic. -/
theorem overrun_not_mem_ev0 (b : Bool) :
    Event.overrun_report ∉ (if b then [Event.statistics] else []) := by
  cases b <;> simp

/-- The final overrun counter of a run is at least the starting one. -/
theorem pollRunLoop_count_mono (c : Config) :
    ∀ (inputs : List IterInput) (count : ℕ), count ≤ (pollRunLoop c count inputs).2.1 := by
  intro inputs
  induction inputs with
  | nil => intro count; exact le_refl _
  | cons i rest ih =>
    intro count
    cases hs : i.stop_flag with
    | true => simp [pollRunLoop, hs]
    | false =>
      cases hstep : iterStep c count i with
      | fatal ev code => simp [pollRunLoop, hs, hstep]
      | cont ev count' =>
        have h1 : count ≤ count' := by
          have h2 := iterStep_cont_count c count i ev count' hstep
          split at h2 <;> omega
        have h3 := ih count'
        simp only [pollRunLoop, hs, Bool.false_eq_true, if_false, hstep]
        exact le_trans h1 h3

/-!
### Claim theorems
-/

/-- C1 (counterexample): at an iteration whose measured elapsed time is
zero (`tv_now = tv_prev = 5`, steal delta 7), the unconditional
evaluation of `steal_perc = ((double)steal_diff / tv_diff) * 100` at
line 674 does reach a division whose divisor is zero (`steal_perc`
yields the non-finite marker `none`), contradicting "the steal
percentage is not computed by division ... never causes a division by
zero"; and the loop body emits no events at all, contradicting "while
still reporting the iteration". -/
theorem zero_elapsed_division_occurs :
    tv_diff iZeroElapsed = 0 ∧
    steal_diff iZeroElapsed = 7 ∧
    steal_perc (steal_diff iZeroElapsed) (tv_diff iZeroElapsed) = none ∧
    iterStep defaultConfig 0 iZeroElapsed = StepRes.cont [] 0 := by
  refine ⟨by decide, by decide, by decide, ?_⟩
  simp only [iterStep, iterMeasure, tv_diff, steal_diff, steal_perc, u64sub,
    tv_max_allowed_diff, U64, NO_NS_IN_MSEC, defaultConfig, iZeroElapsed]
  norm_num

/-- C1 (amended): for every iteration in which the measured elapsed
time is zero, no steal-percentage classification and no overrun
diagnostic is produced and the counter is unchanged (the overrun branch
requires `tv_diff` strictly above the never-negative gap threshold);
the steal percentage is nevertheless still computed, by a non-trapping
IEEE division with zero divisor whose non-finite result (`none`) is
never consulted; and the iteration is not specially reported — the body
emits at most the requested statistics snapshot. -/
theorem zero_elapsed_no_classification (c : Config) (count : ℕ) (i : IterInput)
    (h0 : tv_diff i = 0)
    (hok : i.poll_errno = none ∨ i.poll_errno = some EINTR) :
    steal_perc (steal_diff i) (tv_diff i) = none ∧
    iterStep c count i =
      StepRes.cont (if i.display_flag then [Event.statistics] else []) count := by
  constructor
  · simp [steal_perc, h0]
  · rw [iterStep_ok_eq c count i hok]
    rcases iterMeasure_cases c count i
        (if i.display_flag then [Event.statistics] else []) with
      ⟨hb, _, _, _⟩ | ⟨_, heq⟩
    · rw [h0] at hb; exact absurd hb (Nat.not_lt_zero _)
    · exact heq

/-- Witness for the amended C1 theorem at the concrete zero-elapsed
fixture. -/
theorem zero_elapsed_no_classification_w :
    steal_perc (steal_diff iZeroElapsed) (tv_diff iZeroElapsed) = none ∧
    iterStep defaultConfig 3 iZeroElapsed =
      StepRes.cont (if iZeroElapsed.display_flag then [Event.statistics] else []) 3 :=
  zero_elapsed_no_classification defaultConfig 3 iZeroElapsed (by decide) (Or.inl rfl)

/-- C2: a non-fatal iteration is classified as an overrun (emits the
`LOG_ERR "Not scheduled for ..."` diagnostic) exactly when the measured
elapsed time strictly exceeds the configured maximum gap
`tv_max_allowed_diff = timeout * NO_NS_IN_MSEC`; an elapsed time equal
to the gap is not an overrun. -/
theorem overrun_iff_elapsed_gt (c : Config) (count : ℕ) (i : IterInput)
    (hok : i.poll_errno = none ∨ i.poll_errno = some EINTR) :
    ∃ ev count', iterStep c count i = StepRes.cont ev count' ∧
      (Event.overrun_report ∈ ev ↔ tv_max_allowed_diff c < tv_diff i) ∧
      (tv_diff i = tv_max_allowed_diff c → Event.overrun_report ∉ ev) := by
  rw [iterStep_ok_eq c count i hok]
  rcases iterMeasure_cases c count i
      (if i.display_flag then [Event.statistics] else []) with
    ⟨hb, tail, heq, _⟩ | ⟨hb, heq⟩
  · refine ⟨_, _, heq, ?_, ?_⟩
    · simp [hb]
    · intro habs; rw [habs] at hb; exact absurd hb (lt_irrefl _)
  · refine ⟨_, _, heq, ?_, ?_⟩
    · simp [hb, overrun_not_mem_ev0]
    · intro _; exact overrun_not_mem_ev0 _

/-- Witness for C2 at the 300 ms overrun fixture. -/
theorem overrun_iff_elapsed_gt_w :
    ∃ ev count', iterStep defaultConfig 0 iOverrun = StepRes.cont ev count' ∧
      (Event.overrun_report ∈ ev ↔ tv_max_allowed_diff defaultConfig < tv_diff iOverrun) ∧
      (tv_diff iOverrun = tv_max_allowed_diff defaultConfig → Event.overrun_report ∉ ev) :=
  overrun_iff_elapsed_gt defaultConfig 0 iOverrun (Or.inl rfl)

/-- C3: every non-fatal loop body sets `times_not_scheduled` to exactly
`count + 1` on an overrun and leaves it at `count` otherwise; the
resulting counter is insensitive to the steal-alarm threshold (the
alarm only adds a warning event, it never suppresses or alters the
increment); and across any whole run the counter never decreases. -/
theorem times_not_scheduled_increment (c : Config) (count : ℕ) (i : IterInput) :
    (∀ ev count', iterStep c count i = StepRes.cont ev count' →
        count' = count + if tv_max_allowed_diff c < tv_diff i then 1 else 0) ∧
    (∀ thr : ℚ,
        stepCount (iterStep ⟨c.timeout, thr⟩ count i) = stepCount (iterStep c count i)) ∧
    (∀ inputs : List IterInput, count ≤ (pollRunLoop c count inputs).2.1) := by
  refine ⟨fun ev count' h => iterStep_cont_count c count i ev count' h, ?_, ?_⟩
  · intro thr
    rcases he : i.poll_errno with _ | e
    · obtain ⟨ev1, n1, h1⟩ := iterStep_cont_of_ok ⟨c.timeout, thr⟩ count i (Or.inl he)
      obtain ⟨ev2, n2, h2⟩ := iterStep_cont_of_ok c count i (Or.inl he)
      rw [h1, h2]
      have e1 := iterStep_cont_count ⟨c.timeout, thr⟩ count i ev1 n1 h1
      have e2 := iterStep_cont_count c count i ev2 n2 h2
      simp only [stepCount]
      rw [e1, e2]
      rfl
    · by_cases hE : e = EINTR
      · subst hE
        obtain ⟨ev1, n1, h1⟩ := iterStep_cont_of_ok ⟨c.timeout, thr⟩ count i (Or.inr he)
        obtain ⟨ev2, n2, h2⟩ := iterStep_cont_of_ok c count i (Or.inr he)
        rw [h1, h2]
        have e1 := iterStep_cont_count ⟨c.timeout, thr⟩ count i ev1 n1 h1
        have e2 := iterStep_cont_count c count i ev2 n2 h2
        simp only [stepCount]
        rw [e1, e2]
        rfl
      · simp [iterStep, he, hE, stepCount]
  · exact fun inputs => pollRunLoop_count_mono c inputs count

/-- Witness for C3 at the overrun fixture: the counter goes from 4 to
exactly 5. -/
theorem times_not_scheduled_increment_w :
    (∀ ev count', iterStep defaultConfig 4 iOverrun = StepRes.cont ev count' →
        count' = 4 + if tv_max_allowed_diff defaultConfig < tv_diff iOverrun then 1 else 0) ∧
    (∀ thr : ℚ, stepCount (iterStep ⟨defaultConfig.timeout, thr⟩ 4 iOverrun) =
        stepCount (iterStep defaultConfig 4 iOverrun)) ∧
    (∀ inputs : List IterInput, 4 ≤ (pollRunLoop defaultConfig 4 inputs).2.1) :=
  times_not_scheduled_increment defaultConfig 4 iOverrun

/-- C4: a loop body reaches `exit` exactly when `poll` failed with an
errno other than `EINTR`, and then with the distinct status 2; an
`EINTR`-interrupted poll behaves exactly like a successful one; and no
other exit code can arise from the loop body. -/
theorem poll_failure_fatal_iff (c : Config) (count : ℕ) (i : IterInput) :
    (∀ ev code, iterStep c count i = StepRes.fatal ev code →
        code = 2 ∧ ∃ e, i.poll_errno = some e ∧ e ≠ EINTR) ∧
    ((∃ e, i.poll_errno = some e ∧ e ≠ EINTR) →
        ∃ ev, iterStep c count i = StepRes.fatal ev 2) ∧
    (i.poll_errno = some EINTR →
        iterStep c count i = iterStep c count { i with poll_errno := none }) := by
  refine ⟨?_, ?_, ?_⟩
  · intro ev code h
    rcases he : i.poll_errno with _ | e
    · obtain ⟨ev', n', h'⟩ := iterStep_cont_of_ok c count i (Or.inl he)
      rw [h'] at h; cases h
    · by_cases hE : e = EINTR
      · subst hE
        obtain ⟨ev', n', h'⟩ := iterStep_cont_of_ok c count i (Or.inr he)
        rw [h'] at h; cases h
      · simp only [iterStep, he, if_pos hE] at h
        cases h
        exact ⟨rfl, e, rfl, hE⟩
  · rintro ⟨e, he, hE⟩
    exact ⟨if i.display_flag then [Event.statistics] else [], by simp [iterStep, he, hE]⟩
  · intro he
    rw [iterStep_ok_eq c count i (Or.inr he)]
    rw [iterStep_ok_eq c count { i with poll_errno := none } (Or.inl rfl)]
    rfl

/-- Witness for C4 at the `EBADF` poll-failure fixture. -/
theorem poll_failure_fatal_iff_w :
    ∃ ev, iterStep defaultConfig 0 iPollFail = StepRes.fatal ev 2 :=
  (poll_failure_fatal_iff defaultConfig 0 iPollFail).2.1 ⟨9, rfl, by decide⟩

/-- A scan over lines none of which reaches 5 conversions keeps the
initial `res_steal = 0`. -/
theorem kernelGetScan_zero (clk : Option ℕ) :
    ∀ lines : List (List Char), (∀ l ∈ lines, (sscanfCpu l).1 ≤ 4) →
      kernelGetScan clk lines = 0 := by
  intro lines
  induction lines with
  | nil => intro _; rfl
  | cons l ls ih =>
    intro hml
    have h4 := hml l (List.mem_cons_self _ _)
    simp only [kernelGetScan]
    rw [if_neg (by omega)]
    exact ih (fun x hx => hml x (List.mem_cons_of_mem _ hx))

/-- The conversion count of the cpu `sscanf` equals the number of
values it produced. -/
theorem sscanfCpu_snd_length (l : List Char) : (sscanfCpu l).2.length = (sscanfCpu l).1 := by
  unfold sscanfCpu
  split <;> rfl

/-- C5: when the selected `/proc/stat` line converts all 8 fields with
steal field `s` and the clock tick is `hz` (`sysconf` result, with 100
as the fallback when it is unavailable), the returned sample is
`s * (NO_NS_IN_SEC / hz)` nanoseconds. -/
theorem kernel_steal_conversion (l : List Char) (ls : List (List Char))
    (clk : Option ℕ) (s : ℕ)
    (h8 : (sscanfCpu l).1 = 8)
    (hs : (sscanfCpu l).2.getD 7 0 = s)
    (_hhz : 0 < clk.getD 100)
    (hov : s * (NO_NS_IN_SEC / clk.getD 100) < U64) :
    nano_stealtime_kernel_get (some (l :: ls)) clk =
      s * (NO_NS_IN_SEC / clk.getD 100) := by
  simp only [nano_stealtime_kernel_get, kernelGetScan]
  rw [if_pos (by rw [h8]; norm_num), hs]
  exact Nat.mod_eq_of_lt hov

/-- Witness for C5 on the spec fixture `cpu 100 5 50 800 2 1 3 40` at
100 Hz: 40 ticks become 400,000,000 ns. -/
theorem kernel_steal_conversion_w :
    nano_stealtime_kernel_get (some ["cpu 100 5 50 800 2 1 3 40".data]) (some 100) =
      400000000 := by
  have h := kernel_steal_conversion "cpu 100 5 50 800 2 1 3 40".data [] (some 100) 40
    (by decide) (by decide) (by decide) (by decide)
  exact h.trans (by decide)

/-- C6: a missing or unreadable `/proc/stat` and a `/proc/stat` with no
line matching more than 4 fields both yield a steal sample of 0, and a
loop iteration whose poll succeeded continues regardless of the steal
sample values — no steal-source degradation is an error. -/
theorem degraded_steal_zero (clk : Option ℕ) (lines : List (List Char))
    (hml : ∀ l ∈ lines, (sscanfCpu l).1 ≤ 4) :
    nano_stealtime_kernel_get none clk = 0 ∧
    nano_stealtime_kernel_get (some lines) clk = 0 ∧
    (∀ (c : Config) (count : ℕ) (i : IterInput), i.poll_errno = none →
      ∃ ev count', iterStep c count i = StepRes.cont ev count') :=
  ⟨rfl, kernelGetScan_zero clk lines hml,
    fun c count i h => iterStep_cont_of_ok c count i (Or.inl h)⟩

/-- Witness for C6 on a `/proc/stat` whose aggregate line has only 4
fields (not enough for `> 4` conversions). -/
theorem degraded_steal_zero_w :
    nano_stealtime_kernel_get none (some 100) = 0 ∧
    nano_stealtime_kernel_get (some ["ctxt 99".data, "cpu 1 2 3 4".data]) (some 100) = 0 ∧
    (∀ (c : Config) (count : ℕ) (i : IterInput), i.poll_errno = none →
      ∃ ev count', iterStep c count i = StepRes.cont ev count') :=
  degraded_steal_zero (some 100) ["ctxt 99".data, "cpu 1 2 3 4".data] (by decide)

/-- C10: a line whose conversion count lands strictly between 4 and 8
(five to seven numeric fields after `cpu`) is accepted as valid, its
missing trailing fields — including the 8th, steal — keep their
initialised value 0, the returned sample is 0, and scanning stops at
that line (later lines are never consulted). -/
theorem truncated_cpu_line_zero (l : List Char) (ls ls' : List (List Char)) (clk : Option ℕ)
    (h5 : 4 < (sscanfCpu l).1) (h8 : (sscanfCpu l).1 < 8) :
    (sscanfCpu l).2.getD 7 0 = 0 ∧
    nano_stealtime_kernel_get (some (l :: ls)) clk = 0 ∧
    kernelGetScan clk (l :: ls) = kernelGetScan clk (l :: ls') := by
  have hget : (sscanfCpu l).2.getD 7 0 = 0 := by
    apply List.getD_eq_default
    rw [sscanfCpu_snd_length]; omega
  refine ⟨hget, ?_, ?_⟩
  · simp only [nano_stealtime_kernel_get, kernelGetScan]
    rw [if_pos h5, hget, Nat.zero_mul, Nat.zero_mod]
  · simp only [kernelGetScan]
    rw [if_pos h5, if_pos h5]

/-- Witness for C10 on the truncated line `cpu 1 2 3 4 5` (5 fields). -/
theorem truncated_cpu_line_zero_w :
    (sscanfCpu "cpu 1 2 3 4 5".data).2.getD 7 0 = 0 ∧
    nano_stealtime_kernel_get (some ["cpu 1 2 3 4 5".data, "cpu 9 9 9 9 9 9 9 9".data])
      (some 100) = 0 ∧
    kernelGetScan (some 100) ["cpu 1 2 3 4 5".data, "cpu 9 9 9 9 9 9 9 9".data] =
      kernelGetScan (some 100) ["cpu 1 2 3 4 5".data] :=
  truncated_cpu_line_zero "cpu 1 2 3 4 5".data ["cpu 9 9 9 9 9 9 9 9".data] []
    (some 100) (by decide) (by decide)

/-- C8: for every validated timeout `T` (1..MAX_TIMEOUT milliseconds),
the duration handed to `poll` each iteration is exactly `T / 3`
(integer division, milliseconds) and is never negative — the
`if (poll_timeout < 0) poll_timeout = 0` clamp keeps it at or above
zero. -/
theorem poll_timeout_one_third (c : Config) (_h1 : 1 ≤ c.timeout)
    (_h2 : c.timeout ≤ MAX_TIMEOUT) :
    poll_timeout_eff c = ((c.timeout / 3 : ℕ) : ℤ) ∧ 0 ≤ poll_timeout_eff c := by
  have hn : ¬ poll_timeout_init c < 0 := by
    simp only [poll_timeout_init]
    omega
  constructor
  · simp only [poll_timeout_eff, if_neg hn]
    rfl
  · simp only [poll_timeout_eff, if_neg hn, poll_timeout_init]
    omega

/-- Witness for C8 at the default 200 ms timeout: `poll` gets 66 ms. -/
theorem poll_timeout_one_third_w :
    poll_timeout_eff defaultConfig = ((defaultConfig.timeout / 3 : ℕ) : ℤ) ∧
      0 ≤ poll_timeout_eff defaultConfig :=
  poll_timeout_one_third defaultConfig (by decide) (by decide)

/-- C9: `steal_diff` is `uint64_t` subtraction, so a post-suspend steal
sample smaller than the pre-suspend one (as a failed vmguestlib query
produces, returning 0 rather than the previous value) wraps the delta
to `2 ^ 64 - (steal_prev - steal_now)` — a value at least `2 ^ 63` when
the backward jump is at most `2 ^ 63` — and the derived steal
percentage over any elapsed time up to 1000 s is an enormous positive
value (at least 10^8 percent), not negative or zero. -/
theorem steal_delta_wraparound (sp sn td : ℕ)
    (hlt : sn < sp) (hsp : sp < U64)
    (hnear : sp - sn ≤ 2 ^ 63)
    (htd0 : 0 < td) (htd : td ≤ 10 ^ 12) :
    u64sub sn sp = U64 - (sp - sn) ∧
    2 ^ 63 ≤ u64sub sn sp ∧
    steal_perc (u64sub sn sp) td = some ((u64sub sn sp : ℚ) / td * 100) ∧
    (10 ^ 8 : ℚ) ≤ (u64sub sn sp : ℚ) / td * 100 ∧
    (∀ g : GuestlibSample, g.update_ok = false ∨ g.stolen_ok = false →
      nano_stealtime_vmguestlib_get g = 0) := by
  have h1 : u64sub sn sp = U64 - (sp - sn) := by
    simp only [u64sub, U64] at hsp ⊢
    omega
  have h2 : 2 ^ 63 ≤ u64sub sn sp := by
    rw [h1]; simp only [U64]; omega
  refine ⟨h1, h2, ?_, ?_, ?_⟩
  · simp [steal_perc, Nat.pos_iff_ne_zero.mp htd0]
  · have htdQ : (0 : ℚ) < td := by exact_mod_cast htd0
    rw [div_mul_eq_mul_div, le_div_iff₀ htdQ]
    have hnat : 10 ^ 8 * td ≤ u64sub sn sp * 100 := by
      calc 10 ^ 8 * td ≤ 10 ^ 8 * 10 ^ 12 := Nat.mul_le_mul_left _ htd
        _ ≤ 2 ^ 63 * 100 := by norm_num
        _ ≤ u64sub sn sp * 100 := Nat.mul_le_mul_right _ h2
    exact_mod_cast hnat
  · intro g hg
    rcases hg with hg | hg
    · simp [nano_stealtime_vmguestlib_get, hg]
    · cases hu : g.update_ok <;> simp [nano_stealtime_vmguestlib_get, hu, hg]

/-- Witness for C9: a pre-suspend sample of 400 ms and a post-suspend
sample of 0 over a 250 ms window. -/
theorem steal_delta_wraparound_w :
    u64sub 0 400000000 = U64 - (400000000 - 0) ∧
    2 ^ 63 ≤ u64sub 0 400000000 ∧
    steal_perc (u64sub 0 400000000) 250000000 =
      some ((u64sub 0 400000000 : ℚ) / 250000000 * 100) ∧
    (10 ^ 8 : ℚ) ≤ (u64sub 0 400000000 : ℚ) / 250000000 * 100 ∧
    (∀ g : GuestlibSample, g.update_ok = false ∨ g.stolen_ok = false →
      nano_stealtime_vmguestlib_get g = 0) :=
  steal_delta_wraparound 400000000 0 250000000 (by decide) (by decide) (by decide)
    (by decide) (by decide)

/-- A run whose prefix neither stops nor fails, followed by an
observation with the stop flag set, executes exactly the prefix's loop
bodies, then exits at the `while` test and emits one final statistics
event. -/
theorem pollRunLoop_stop (c : Config) :
    ∀ (pre : List IterInput) (count : ℕ) (i : IterInput) (rest : List IterInput),
      (∀ j ∈ pre, j.stop_flag = false ∧
        (j.poll_errno = none ∨ j.poll_errno = some EINTR)) →
      i.stop_flag = true →
      pollRunLoop c count (pre ++ i :: rest) =
        ((runEvents c count pre).1 ++ [Event.statistics], (runEvents c count pre).2,
          Outcome.stopped) := by
  intro pre
  induction pre with
  | nil =>
    intro count i rest _ hstop
    simp [pollRunLoop, runEvents, hstop]
  | cons j t ih =>
    intro count i rest hpre hstop
    have hj := hpre j (List.mem_cons_self _ _)
    obtain ⟨ev, count', hc⟩ := iterStep_cont_of_ok c count j hj.2
    simp only [List.cons_append, List.append_eq, pollRunLoop, hj.1, Bool.false_eq_true,
      if_false, hc, runEvents]
    rw [ih count' i rest (fun x hx => hpre x (List.mem_cons_of_mem _ hx)) hstop]
    simp [List.append_assoc]

/-- C7: once the stop flag is observed at the top of the loop, no
further iteration begins — the run consists of exactly the iterations
before the observation, the loop exits (`Outcome.stopped`), exactly one
final statistics snapshot is emitted after those iterations' events,
and nothing after the stop observation is ever consulted. -/
theorem stop_flag_terminates (c : Config) (count : ℕ) (pre : List IterInput)
    (i : IterInput) (rest rest' : List IterInput)
    (hpre : ∀ j ∈ pre, j.stop_flag = false ∧
      (j.poll_errno = none ∨ j.poll_errno = some EINTR))
    (hstop : i.stop_flag = true) :
    pollRunLoop c count (pre ++ i :: rest) =
      ((runEvents c count pre).1 ++ [Event.statistics], (runEvents c count pre).2,
        Outcome.stopped) ∧
    pollRunLoop c count (pre ++ i :: rest) = pollRunLoop c count (pre ++ i :: rest') := by
  have hA := pollRunLoop_stop c pre count i rest hpre hstop
  have hB := pollRunLoop_stop c pre count i rest' hpre hstop
  exact ⟨hA, hA.trans hB.symm⟩

/-- Witness for C7: one quiet iteration, then a stop observation; the
trailing input is never consulted. -/
theorem stop_flag_terminates_w :
    pollRunLoop defaultConfig 0 ([iQuiet] ++ iStop :: [iQuiet]) =
      ((runEvents defaultConfig 0 [iQuiet]).1 ++ [Event.statistics],
        (runEvents defaultConfig 0 [iQuiet]).2, Outcome.stopped) ∧
    pollRunLoop defaultConfig 0 ([iQuiet] ++ iStop :: [iQuiet]) =
      pollRunLoop defaultConfig 0 ([iQuiet] ++ iStop :: []) :=
  stop_flag_terminates defaultConfig 0 [iQuiet] iStop [iQuiet] []
    (by decide) (by decide)

end Spausedd
